import Mathlib

/-!
Verification of the learning-rate scheduler callbacks, the Bernoulli
likelihood, and the estimator lifecycle of this repository, by a shallow
embedding in Lean 4.

Conventions of the embedding:
  - Python/numpy floating point arithmetic is modelled by exact rational
    arithmetic (`Rat`) where the source only uses field operations, floor,
    absolute value, max and integer powers, and by real arithmetic (`Real`)
    where the source uses `cos` or `sqrt`.
  - An optimizer is represented by the only data the schedulers touch: the
    list of the learning rates of its parameter groups.
  - Exceptions raised by the source are modelled with `Except`.
-/

namespace Spec2Proof

/-- A learning-rate constructor parameter: the source accepts a scalar
(broadcast over parameter groups) or a list/tuple. -/
inductive LRParam (α : Type) where
  | scalar (v : α)
  | list (vs : List α)

/-- The data carried by the ValueError message raised by `_format_lr`:
`"expected {} values for {}, got {}".format(len(optimizer.param_groups), name, len(lr))`. -/
structure FormatError where
  name : String
  expected : Nat
  got : Nat
deriving DecidableEq, Repr

/-- Embedding of `_format_lr` , defined with this same body in both
`WarmRestartLR._format_lr` (lr_scheduler.py lines 156-164) and
`CyclicLR._format_lr` (lines 311-319): a list whose length differs from the
number of parameter groups raises a ValueError; a scalar is broadcast by
`lr * np.ones(len(optimizer.param_groups))`. -/
def formatLr {α : Type} (name : String) (numGroups : Nat) (lr : LRParam α) :
    Except FormatError (List α) :=
  match lr with
  | .list vs =>
      if vs.length = numGroups then .ok vs
      else .error ⟨name, numGroups, vs.length⟩
  | .scalar v => .ok (List.replicate numGroups v)

/-! ## CyclicLR -/

/-- The `scale_mode` attribute of `CyclicLR`: whether `scale_fn` is evaluated
on the cycle number or on the batch index (cycle iterations). -/
inductive ScaleMode where
  | cycle
  | iterations
deriving DecidableEq, Repr

/-- State of a `CyclicLR` scheduler after construction.  `optimizer` is the
list of the `lr` fields of `optimizer.param_groups`.  The resolved
`scale_fn` takes an integer because both call sites in `get_lr` pass an
integer-valued argument (the cycle number, or `last_batch_idx`). -/
structure CyclicState where
  optimizer : List ℚ
  base_lrs : List ℚ
  max_lrs : List ℚ
  step_size : ℤ
  gamma : ℚ
  scaleFn : ℤ → ℚ
  scaleMode : ScaleMode
  last_batch_idx : ℤ

/-- Embedding of `CyclicLR._triangular_scale_fn`: constant 1. -/
def triangularScaleFn (_ : ℤ) : ℚ := 1

/-- Embedding of `CyclicLR._triangular2_scale_fn`: `1 / (2. ** (x - 1))`,
with the integer power written as `zpow` on `Rat`. -/
def triangular2ScaleFn (x : ℤ) : ℚ := 1 / (2 : ℚ) ^ (x - 1)

/-- Embedding of `CyclicLR._exp_range_scale_fn`: `gamma ** x`, with the
integer power written as `zpow` on `Rat`. -/
def expRangeScaleFn (gamma : ℚ) (x : ℤ) : ℚ := gamma ^ x

/-- The local `cycle` of `CyclicLR.get_lr` (lr_scheduler.py line 360):
`np.floor(1 + self.last_batch_idx / (2 * step_size))`. -/
def CyclicState.cycle (s : CyclicState) : ℤ :=
  ⌊(1 : ℚ) + (s.last_batch_idx : ℚ) / (2 * (s.step_size : ℚ))⌋

/-- The local `x` of `CyclicLR.get_lr` (lr_scheduler.py line 361):
`np.abs(self.last_batch_idx / step_size - 2 * cycle + 1)`. -/
def CyclicState.x (s : CyclicState) : ℚ :=
  |(s.last_batch_idx : ℚ) / (s.step_size : ℚ) - 2 * (s.cycle : ℚ) + 1|

/-- Embedding of `CyclicLR.get_lr` (lr_scheduler.py lines 355-371): per
parameter group, `lr = base_lr + (max_lr - base_lr) * max(0, 1 - x) * scale`
where `scale` is `scale_fn(cycle)` or `scale_fn(last_batch_idx)` according
to `scale_mode`. -/
def CyclicState.get_lr (s : CyclicState) : List ℚ :=
  List.zipWith (fun base_lr max_lr =>
    let base_height := (max_lr - base_lr) * max 0 (1 - s.x)
    match s.scaleMode with
    | .cycle => base_lr + base_height * s.scaleFn s.cycle
    | .iterations => base_lr + base_height * s.scaleFn s.last_batch_idx)
    s.base_lrs s.max_lrs

/-- The per-group learning rate that claim C3 asserts for exp_range mode
(spec-words definition, for comparison with the source embedding): the
amplitude term scaled by gamma raised to the current cycle number. -/
def expRangeClaimLR (s : CyclicState) : List ℚ :=
  List.zipWith (fun base_lr max_lr =>
    base_lr + (max_lr - base_lr) * max 0 (1 - s.x) * s.gamma ^ s.cycle)
    s.base_lrs s.max_lrs

/-- The exp_range learning rate as the source computes it: the amplitude
term scaled by gamma raised to `last_batch_idx` (the cycle-iteration
count), since `mode == exp_range` selects `scale_mode = iterations`. -/
def expRangeIterLR (s : CyclicState) : List ℚ :=
  List.zipWith (fun base_lr max_lr =>
    base_lr + (max_lr - base_lr) * max 0 (1 - s.x) * s.gamma ^ s.last_batch_idx)
    s.base_lrs s.max_lrs

/-- Embedding of `for param_group, lr in zip(optimizer.param_groups, lrs): param_group[lr] = lr`:
groups beyond the length of `lrs` keep their old learning rate. -/
def applyLrs (groups lrs : List ℚ) : List ℚ :=
  List.zipWith (fun _ lr => lr) groups lrs ++ groups.drop lrs.length

/-- Embedding of `CyclicLR.batch_step` (lines 325-334): with `None` the
internal index advances by one; the stored index is set and every parameter
group learning rate is updated from `get_lr`. -/
def CyclicState.batch_step (s : CyclicState) (batch_idx : Option ℤ) : CyclicState :=
  let idx := match batch_idx with
    | none => s.last_batch_idx + 1
    | some i => i
  let s1 := { s with last_batch_idx := idx }
  { s1 with optimizer := applyLrs s1.optimizer s1.get_lr }

/-- Embedding of `CyclicLR.step` (lines 321-323): the body is `pass`. -/
def CyclicState.step (s : CyclicState) (_epoch : Option ℤ) : CyclicState := s

/-- Errors that `CyclicLR.__init__` can raise: the two ValueError sites of
`_format_lr` and the `mode is invalid and scale_fn is None` ValueError. -/
inductive CyclicInitError where
  | format (e : FormatError)
  | invalidMode

/-- Embedding of `CyclicLR.__init__` (lr_scheduler.py lines 274-309): format
the learning rates, resolve `scale_fn`/`scale_mode` from `mode` when no
custom `scale_fn` is given (raising when the mode is not one of the three
built-ins), call `batch_step(last_batch_idx + 1)`, then store
`last_batch_idx` itself.  The `last_batch_idx` field before that first
`batch_step` call is never read (the call passes an explicit index), so the
pre-state uses 0 as a placeholder.  The isinstance check on the optimizer is
outside the embedded data model. -/
def CyclicLR_init (optimizer : List ℚ) (base_lr max_lr : LRParam ℚ)
    (step_size : ℤ) (mode : String) (gamma : ℚ)
    (scale_fn : Option (ℤ → ℚ)) (scale_mode : ScaleMode)
    (last_batch_idx : ℤ) : Except CyclicInitError CyclicState :=
  match formatLr "base_lr" optimizer.length base_lr with
  | .error e => .error (.format e)
  | .ok base_lrs =>
    match formatLr "max_lr" optimizer.length max_lr with
    | .error e => .error (.format e)
    | .ok max_lrs =>
      let mk : (ℤ → ℚ) → ScaleMode → Except CyclicInitError CyclicState :=
        fun fn smode =>
          let s0 : CyclicState :=
            ⟨optimizer, base_lrs, max_lrs, step_size, gamma, fn, smode, 0⟩
          let s1 := s0.batch_step (some (last_batch_idx + 1))
          .ok { s1 with last_batch_idx := last_batch_idx }
      match scale_fn with
      | some fn => mk fn scale_mode
      | none =>
          if mode = "triangular" then mk triangularScaleFn .cycle
          else if mode = "triangular2" then mk triangular2ScaleFn .cycle
          else if mode = "exp_range" then mk (expRangeScaleFn gamma) .iterations
          else .error .invalidMode

/-! ## WarmRestartLR -/

/-- Embedding of the `while` loop of `WarmRestartLR.get_lr`
(lr_scheduler.py lines 170-174):
`while epoch_idx / current_period > 1.0: epoch_idx -= current_period + 1; current_period *= period_mult`.
Both quantities start as (float images of) integers and stay integral, so
the loop is embedded on `ℤ × ℤ`.  For a positive period the float condition
`epoch_idx / current_period > 1.0` is equivalent to
`current_period < epoch_idx`, which is the guard used here; the added
`0 < P` conjunct restricts the function to the domain on which the source
loop terminates (with a nonpositive period the source either divides by zero
or loops forever). -/
def wrLoop (mult : ℤ) (e P : ℤ) : ℤ × ℤ :=
  if _h : 0 < P ∧ P < e then wrLoop mult (e - (P + 1)) (P * mult)
  else (e, P)
termination_by e.toNat
decreasing_by
  omega

/-- State of a `WarmRestartLR` scheduler: the formatted per-group `min_lr`
and `max_lr` arrays and the scalar constructor parameters.  The `step` walk
of the torch `_LRScheduler` base class is external framework code and is
outside the embedding; `last_epoch` is the index `get_lr` reads. -/
structure WRState where
  min_lrs : List ℝ
  max_lrs : List ℝ
  base_period : ℤ
  period_mult : ℤ
  last_epoch : ℤ

/-- Embedding of `WarmRestartLR._get_current_lr` (lr_scheduler.py
lines 166-167): `min_lr + 0.5*(max_lr-min_lr)*(1 + np.cos(epoch*np.pi/period))`,
elementwise over the per-group arrays. -/
noncomputable def currentLr (min_lr max_lr : ℝ) (period epoch : ℤ) : ℝ :=
  min_lr + (1 / 2) * (max_lr - min_lr) *
    (1 + Real.cos ((epoch : ℝ) * Real.pi / (period : ℝ)))

/-- Embedding of `WarmRestartLR.get_lr` (lr_scheduler.py lines 169-182):
reduce `(last_epoch, base_period)` by the restart loop, then apply
`_get_current_lr` to every parameter group. -/
noncomputable def WRState.get_lr (s : WRState) : List ℝ :=
  let r := wrLoop s.period_mult s.last_epoch s.base_period
  List.zipWith (fun mn mx => currentLr mn mx r.2 r.1) s.min_lrs s.max_lrs

/-- Embedding of `WarmRestartLR.__init__` (lr_scheduler.py lines 142-154):
format `min_lr` and `max_lr` against the optimizer parameter groups and
store the period data.  The `super().__init__(optimizer, last_epoch)` call
is torch framework code; its only effect read by the claims is that
`self.last_epoch` holds the epoch index. -/
def WarmRestartLR_init (optimizer : List ℝ) (min_lr max_lr : LRParam ℝ)
    (base_period period_mult last_epoch : ℤ) : Except FormatError WRState :=
  match formatLr "min_lr" optimizer.length min_lr with
  | .error e => .error e
  | .ok min_lrs =>
    match formatLr "max_lr" optimizer.length max_lr with
    | .error e => .error e
    | .ok max_lrs =>
      .ok ⟨min_lrs, max_lrs, base_period, period_mult, last_epoch⟩

/-! ## BernoulliLikelihood -/

/-- The random-variable kinds the Bernoulli likelihood distinguishes: the
isinstance check in `BernoulliLikelihood.forward` only asks whether the
input is a `GaussianRandomVariable`; mean and variance are the data it
reads. -/
inductive RandomVariable where
  | gaussian (mean var : ℝ)
  | bernoulli (probs : ℝ)

/-- Embedding of `BernoulliLikelihood.forward`
(bernoulli_likelihood.py lines 23-47): raise a RuntimeError unless the
input is Gaussian, otherwise return a `BernoulliRandomVariable` with
probabilities `normal_cdf(mean / sqrt(1 + var))`.  The `normal_cdf`
function comes from `gpytorch.functions`, repository code that is not under
src/, so it is passed as the parameter `ncdf`. -/
noncomputable def BernoulliLikelihood.forward (ncdf : ℝ → ℝ)
    (input : RandomVariable) : Except String RandomVariable :=
  match input with
  | .gaussian mean var =>
      .ok (.bernoulli (ncdf (mean / Real.sqrt (1 + var))))
  | _ =>
      .error "BernoulliLikelihood expects a Gaussian distributed latent function to make predictions"

/-! ## NeuralNet lifecycle (spec-modelled)

The `NeuralNet` class itself is code of this repository that is not under
src/ — only its tests (`src/skorch/tests/test_net.py`) are.  The
definitions in this section are therefore modelled from the spec, faithful
to its words, and the tests fix the exact error payloads. -/

/-- Modelled from the spec: the keyword validation of `NeuralNet.__init__`
is not under src/.  Spec: "unknown configuration keys are rejected eagerly
(fail fast, itemizing all unknown keys at once)" — the unrecognized names
among `kwargs`, in order, with duplicates kept. -/
def unknownKwargs (known kwargs : List String) : List String :=
  kwargs.filter (fun k => !(known.contains k))

/-- Modelled from the spec: `NeuralNet.__init__` raises a single aggregated
TypeError listing every unrecognized keyword name, and succeeds when all
keywords are recognized. -/
def netInitCheck (known kwargs : List String) : Except (List String) Unit :=
  let unk := unknownKwargs known kwargs
  if unk.isEmpty then .ok () else .error unk

/-- A net as seen by `save_params`/`load_params`: whether it has been
initialized, and its parameter state. -/
structure PNet where
  initialized : Bool
  params : List ℚ

/-- The message of the NotInitializedError raised by `save_params` on an
un-initialized net (fixed by `test_save_state_dict_not_init`). -/
def saveNotInitMsg : String :=
  "Cannot save parameters of an un-initialized model. Please initialize first by calling .initialize() or by fitting the model with .fit(...)."

/-- The message of the NotInitializedError raised by `load_params` on an
un-initialized net (fixed by `test_load_state_dict_not_init`). -/
def loadNotInitMsg : String :=
  "Cannot load parameters of an un-initialized model. Please initialize first by calling .initialize() or by fitting the model with .fit(...)."

/-- Modelled from the spec: `NeuralNet.save_params` is not under src/.
Spec: "a model must be explicitly initialized before parameters can be
saved"; on an un-initialized net a NotInitializedError is raised and the
disk slot is not written.  Returns the new content of the disk slot. -/
def save_params (net : PNet) (_disk : Option (List ℚ)) :
    Except String (Option (List ℚ)) :=
  if net.initialized then .ok (some net.params) else .error saveNotInitMsg

/-- Modelled from the spec: `NeuralNet.load_params` is not under src/.
On an un-initialized net a NotInitializedError is raised and no parameter
state is read.  Returns the net with the loaded parameters. -/
def load_params (net : PNet) (disk : Option (List ℚ)) :
    Except String PNet :=
  if net.initialized then
    match disk with
    | some ps => .ok { net with params := ps }
    | none => .error "file not found"
  else .error loadNotInitMsg

/-- A net as seen by the fit lifecycle.  Modelled from the spec:
`NeuralNet.fit`/`partial_fit` are not under src/.  Random module
re-initialization is modelled by a fresh-seed counter: `params` is the pair
(seed the module was initialized from, number of training epochs applied),
so two distinct initializations always yield distinct parameters. -/
structure FNet where
  warm_start : Bool
  initialized : Bool
  seed : Nat
  params : Nat × Nat

/-- Modelled from the spec: module (re-)initialization draws fresh
parameters; the seed counter advances so the new parameters differ from
every earlier draw. -/
def initNet (net : FNet) : FNet :=
  { net with initialized := true, params := (net.seed, 0), seed := net.seed + 1 }

/-- Modelled from the spec: the training loop updates the parameters once
per epoch, and with zero epochs leaves them untouched. -/
def trainLoop (net : FNet) (epochs : Nat) : FNet :=
  { net with params := (net.params.1, net.params.2 + epochs) }

/-- Modelled from the spec: `fit` re-initializes the module unless
`warm_start` is set and the net is already initialized, then trains for
`max_epochs` epochs. -/
def fit (net : FNet) (max_epochs : Nat) : FNet :=
  let net1 := if net.warm_start && net.initialized then net else initNet net
  trainLoop net1 max_epochs

/-- Modelled from the spec: `partial_fit` never re-initializes an already
initialized module, regardless of `warm_start`. -/
def fitPartial (net : FNet) (max_epochs : Nat) : FNet :=
  let net1 := if net.initialized then net else initNet net
  trainLoop net1 max_epochs

/-! ## Concrete instances used by witnesses and counterexamples -/

/-- The state produced by
`CyclicLR([0.1], base_lr=0.001, max_lr=0.006, step_size=2, mode=triangular)`:
the constructor has already written the index-0 learning rate (the base
rate) into the optimizer and restored `last_batch_idx = -1`. -/
def stW : CyclicState :=
  ⟨[1/1000], [1/1000], [6/1000], 2, 1, triangularScaleFn, .cycle, -1⟩

/-- The state produced by
`CyclicLR([1], base_lr=0, max_lr=1, step_size=2, mode=exp_range, gamma=0.5)`. -/
def stC3 : CyclicState :=
  ⟨[0], [0], [1], 2, 1/2, expRangeScaleFn (1/2), .iterations, -1⟩

/-! ## Helper lemmas -/

theorem zipWith_fst {α β : Type} (f : α → β → α) (h : ∀ a b, f a b = a) :
    ∀ (l1 : List α) (l2 : List β), l1.length ≤ l2.length →
      List.zipWith f l1 l2 = l1 := by
  intro l1
  induction l1 with
  | nil => intro l2 _; simp
  | cons a l ih =>
    intro l2 hle
    cases l2 with
    | nil => simp at hle
    | cons b l2 => simp [h a b, ih l2 (by simpa using hle)]

theorem applyLrs_of_length {groups lrs : List ℚ} (h : lrs.length = groups.length) :
    applyLrs groups lrs = lrs := by
  unfold applyLrs
  have hz : ∀ (g l : List ℚ), l.length = g.length →
      List.zipWith (fun _ lr => lr) g l = l := by
    intro g
    induction g with
    | nil =>
      intro l hl
      cases l with
      | nil => simp
      | cons b l2 => simp at hl
    | cons a g ih =>
      intro l hl
      cases l with
      | nil => simp
      | cons b l2 =>
        simp only [List.zipWith]
        rw [ih l2 (by simpa using hl)]
  rw [hz groups lrs h, h, List.drop_length, List.append_nil]

theorem formatLr_length {α : Type} {name : String} {n : Nat} {p : LRParam α}
    {res : List α} (h : formatLr name n p = .ok res) : res.length = n := by
  cases p with
  | list vs =>
    by_cases hl : vs.length = n
    · simp only [formatLr, if_pos hl] at h
      cases h
      exact hl
    · simp [formatLr, if_neg hl] at h
  | scalar v =>
    simp only [formatLr, Except.ok.injEq] at h
    rw [← h]
    simp

theorem get_lr_length (s : CyclicState) :
    s.get_lr.length = min s.base_lrs.length s.max_lrs.length := by
  unfold CyclicState.get_lr
  rw [List.length_zipWith]

theorem cyclic_cycle_at_multiple (s : CyclicState) (k : ℕ)
    (hss : s.step_size ≠ 0)
    (hidx : s.last_batch_idx = (k : ℤ) * (2 * s.step_size)) :
    s.cycle = (k : ℤ) + 1 := by
  have hssQ : (s.step_size : ℚ) ≠ 0 := Int.cast_ne_zero.mpr hss
  unfold CyclicState.cycle
  rw [hidx]
  push_cast
  rw [mul_div_assoc, div_self (mul_ne_zero two_ne_zero hssQ), mul_one]
  have h1 : (1 : ℚ) + (k : ℚ) = (((k : ℤ) + 1 : ℤ) : ℚ) := by push_cast; ring
  rw [h1, Int.floor_intCast]

theorem cyclic_x_at_multiple (s : CyclicState) (k : ℕ)
    (hss : s.step_size ≠ 0)
    (hidx : s.last_batch_idx = (k : ℤ) * (2 * s.step_size)) :
    s.x = 1 := by
  have hssQ : (s.step_size : ℚ) ≠ 0 := Int.cast_ne_zero.mpr hss
  unfold CyclicState.x
  rw [cyclic_cycle_at_multiple s k hss hidx, hidx]
  push_cast
  have h2 : (k : ℚ) * (2 * (s.step_size : ℚ)) / (s.step_size : ℚ) = 2 * k := by
    field_simp
    ring
  rw [h2]
  have h3 : 2 * (k : ℚ) - 2 * ((k : ℚ) + 1) + 1 = -1 := by ring
  rw [h3]
  norm_num

theorem CyclicLR_init_ok_shape
    {opt : List ℚ} {base_lr max_lr : LRParam ℚ} {ss : ℤ} {mode : String}
    {gamma : ℚ} {sfn : Option (ℤ → ℚ)} {smode0 : ScaleMode} {last : ℤ}
    {st : CyclicState}
    (h : CyclicLR_init opt base_lr max_lr ss mode gamma sfn smode0 last = .ok st) :
    ∃ bl ml fn smode,
      formatLr "base_lr" opt.length base_lr = .ok bl ∧
      formatLr "max_lr" opt.length max_lr = .ok ml ∧
      st = { CyclicState.batch_step ⟨opt, bl, ml, ss, gamma, fn, smode, 0⟩
               (some (last + 1)) with last_batch_idx := last } := by
  unfold CyclicLR_init at h
  cases hb : formatLr "base_lr" opt.length base_lr with
  | error e => rw [hb] at h; simp at h
  | ok bl =>
    rw [hb] at h
    cases hm : formatLr "max_lr" opt.length max_lr with
    | error e => rw [hm] at h; simp at h
    | ok ml =>
      rw [hm] at h
      simp only [] at h
      cases sfn with
      | some fn =>
        simp only [Except.ok.injEq] at h
        exact ⟨bl, ml, fn, smode0, rfl, rfl, h.symm⟩
      | none =>
        by_cases h1 : mode = "triangular"
        · rw [if_pos h1] at h
          simp only [Except.ok.injEq] at h
          exact ⟨bl, ml, triangularScaleFn, .cycle, rfl, rfl, h.symm⟩
        · rw [if_neg h1] at h
          by_cases h2 : mode = "triangular2"
          · rw [if_pos h2] at h
            simp only [Except.ok.injEq] at h
            exact ⟨bl, ml, triangular2ScaleFn, .cycle, rfl, rfl, h.symm⟩
          · rw [if_neg h2] at h
            by_cases h3 : mode = "exp_range"
            · rw [if_pos h3] at h
              simp only [Except.ok.injEq] at h
              exact ⟨bl, ml, expRangeScaleFn gamma, .iterations, rfl, rfl, h.symm⟩
            · rw [if_neg h3] at h
              simp at h

theorem CyclicLR_init_ok_mode
    {opt : List ℚ} {base_lr max_lr : LRParam ℚ} {ss : ℤ} {mode : String}
    {gamma : ℚ} {smode0 : ScaleMode} {last : ℤ} {st : CyclicState}
    (h : CyclicLR_init opt base_lr max_lr ss mode gamma none smode0 last = .ok st) :
    ∃ bl ml,
      formatLr "base_lr" opt.length base_lr = .ok bl ∧
      formatLr "max_lr" opt.length max_lr = .ok ml ∧
      ((mode = "triangular" ∧
          st = { CyclicState.batch_step
                   ⟨opt, bl, ml, ss, gamma, triangularScaleFn, .cycle, 0⟩
                   (some (last + 1)) with last_batch_idx := last }) ∨
       (mode = "triangular2" ∧
          st = { CyclicState.batch_step
                   ⟨opt, bl, ml, ss, gamma, triangular2ScaleFn, .cycle, 0⟩
                   (some (last + 1)) with last_batch_idx := last }) ∨
       (mode = "exp_range" ∧
          st = { CyclicState.batch_step
                   ⟨opt, bl, ml, ss, gamma, expRangeScaleFn gamma, .iterations, 0⟩
                   (some (last + 1)) with last_batch_idx := last })) := by
  unfold CyclicLR_init at h
  cases hb : formatLr "base_lr" opt.length base_lr with
  | error e => rw [hb] at h; simp at h
  | ok bl =>
    rw [hb] at h
    cases hm : formatLr "max_lr" opt.length max_lr with
    | error e => rw [hm] at h; simp at h
    | ok ml =>
      rw [hm] at h
      refine ⟨bl, ml, rfl, rfl, ?_⟩
      by_cases h1 : mode = "triangular"
      · simp only [h1, reduceIte, Except.ok.injEq] at h
        exact .inl ⟨h1, h.symm⟩
      · by_cases h2 : mode = "triangular2"
        · simp [h1, h2] at h
          exact .inr (.inl ⟨h2, h.symm⟩)
        · by_cases h3 : mode = "exp_range"
          · simp [h1, h2, h3] at h
            exact .inr (.inr ⟨h3, h.symm⟩)
          · simp [h1, h2, h3] at h

theorem WarmRestartLR_init_ok_shape
    {opt : List ℝ} {min_lr max_lr : LRParam ℝ} {bp pm le : ℤ} {ws : WRState}
    (h : WarmRestartLR_init opt min_lr max_lr bp pm le = .ok ws) :
    ∃ mnl mxl,
      formatLr "min_lr" opt.length min_lr = .ok mnl ∧
      formatLr "max_lr" opt.length max_lr = .ok mxl ∧
      ws = ⟨mnl, mxl, bp, pm, le⟩ := by
  unfold WarmRestartLR_init at h
  cases hb : formatLr "min_lr" opt.length min_lr with
  | error e => rw [hb] at h; simp at h
  | ok mnl =>
    rw [hb] at h
    cases hm : formatLr "max_lr" opt.length max_lr with
    | error e => rw [hm] at h; simp at h
    | ok mxl =>
      rw [hm] at h
      simp only [Except.ok.injEq] at h
      exact ⟨mnl, mxl, rfl, rfl, h.symm⟩

theorem get_lr_base_at_multiple (s : CyclicState) (k : ℕ)
    (hlen : s.base_lrs.length ≤ s.max_lrs.length)
    (hss : s.step_size ≠ 0)
    (hidx : s.last_batch_idx = (k : ℤ) * (2 * s.step_size)) :
    s.get_lr = s.base_lrs := by
  have hx := cyclic_x_at_multiple s k hss hidx
  unfold CyclicState.get_lr
  rw [hx]
  cases hsm : s.scaleMode <;>
    exact zipWith_fst _ (fun a b => by simp) s.base_lrs s.max_lrs hlen

theorem stW_init :
    CyclicLR_init [1/10] (.scalar (1/1000)) (.scalar (6/1000)) 2
      "triangular" 1 none .cycle (-1) = .ok stW := by
  simp only [CyclicLR_init, formatLr, CyclicState.batch_step, applyLrs,
    CyclicState.get_lr, CyclicState.x, CyclicState.cycle, stW,
    triangularScaleFn, List.length_cons, List.length_nil, List.replicate]
  norm_num [Int.floor_eq_iff]

theorem stC3_init :
    CyclicLR_init [1] (.scalar 0) (.scalar 1) 2 "exp_range" (1/2) none
      .cycle (-1) = .ok stC3 := by
  simp only [CyclicLR_init, formatLr, CyclicState.batch_step, applyLrs,
    CyclicState.get_lr, CyclicState.x, CyclicState.cycle, stC3,
    expRangeScaleFn, List.length_cons, List.length_nil, List.replicate]
  norm_num [Int.floor_eq_iff]
  simp

/-! ## Claim theorems -/

/-- C1: For every mode among triangular, triangular2 and exp_range, the
cyclic scheduler learning rate at a batch index equal to a nonnegative
integer multiple of twice the step size is exactly the base learning rate
of every parameter group. -/
theorem cyclic_lr_returns_to_base
    (opt : List ℚ) (base_lr max_lr : LRParam ℚ) (ss : ℤ) (mode : String)
    (gamma : ℚ) (smode0 : ScaleMode) (last : ℤ) (st : CyclicState) (k : ℕ)
    (_hmode : mode ∈ ["triangular", "triangular2", "exp_range"])
    (hss : 0 < ss)
    (hinit : CyclicLR_init opt base_lr max_lr ss mode gamma none smode0 last
      = .ok st) :
    CyclicState.get_lr { st with last_batch_idx := (k : ℤ) * (2 * ss) }
      = st.base_lrs := by
  obtain ⟨bl, ml, hb, hm, hcases⟩ := CyclicLR_init_ok_mode hinit
  have hbl := formatLr_length hb
  have hml := formatLr_length hm
  rcases hcases with ⟨_, hst⟩ | ⟨_, hst⟩ | ⟨_, hst⟩ <;>
  · subst hst
    apply get_lr_base_at_multiple _ k
    · show bl.length ≤ ml.length
      rw [hbl, hml]
    · exact ne_of_gt hss
    · rfl

theorem cyclic_lr_returns_to_base_witness :
    CyclicState.get_lr { stW with last_batch_idx := ((3 : ℕ) : ℤ) * (2 * 2) }
      = stW.base_lrs :=
  cyclic_lr_returns_to_base [1/10] (.scalar (1/1000)) (.scalar (6/1000)) 2
    "triangular" 1 .cycle (-1) stW 3 (by simp) (by norm_num) stW_init

/-- C3 counterexample: in exp_range mode at batch index 2 (base_lr 0,
max_lr 1, step_size 2, gamma 1/2) the source computes the learning rate
1/4 = gamma^2 (gamma to the batch index), while the formula of the claim,
with gamma raised to the cycle number, gives 1/2: the claim is false as
stated. -/
theorem cyclic_exp_range_counterexample :
    CyclicLR_init [1] (.scalar 0) (.scalar 1) 2 "exp_range" (1/2) none
      .cycle (-1) = .ok stC3 ∧
    CyclicState.get_lr { stC3 with last_batch_idx := 2 } = [1/4] ∧
    expRangeClaimLR { stC3 with last_batch_idx := 2 } = [1/2] ∧
    CyclicState.get_lr { stC3 with last_batch_idx := 2 }
      ≠ expRangeClaimLR { stC3 with last_batch_idx := 2 } := by
  have h1 : CyclicState.get_lr { stC3 with last_batch_idx := 2 } = [1/4] := by
    simp only [CyclicState.get_lr, CyclicState.x, CyclicState.cycle, stC3,
      expRangeScaleFn, List.zipWith]
    norm_num [Int.floor_eq_iff]
  have h2 : expRangeClaimLR { stC3 with last_batch_idx := 2 } = [1/2] := by
    simp only [expRangeClaimLR, CyclicState.x, CyclicState.cycle, stC3,
      List.zipWith]
    norm_num [Int.floor_eq_iff]
  refine ⟨stC3_init, h1, h2, ?_⟩
  rw [h1, h2]
  norm_num

/-- C3 amended: in exp_range mode the per-group learning rate is base_lr
plus (max_lr - base_lr) * max(0, 1 - x) scaled by gamma raised to the
current batch index (the cycle-iteration count), because exp_range selects
scale_mode = iterations. -/
theorem cyclic_exp_range_scales_by_iterations
    (opt : List ℚ) (base_lr max_lr : LRParam ℚ) (ss : ℤ) (gamma : ℚ)
    (smode0 : ScaleMode) (last : ℤ) (st : CyclicState) (idx : ℤ)
    (hinit : CyclicLR_init opt base_lr max_lr ss "exp_range" gamma none
      smode0 last = .ok st) :
    CyclicState.get_lr { st with last_batch_idx := idx }
      = expRangeIterLR { st with last_batch_idx := idx } := by
  obtain ⟨bl, ml, hb, hm, hcases⟩ := CyclicLR_init_ok_mode hinit
  rcases hcases with ⟨hmode, _⟩ | ⟨hmode, _⟩ | ⟨_, hst⟩
  · exact absurd hmode (by decide)
  · exact absurd hmode (by decide)
  · subst hst
    rfl

theorem cyclic_exp_range_scales_by_iterations_witness :
    CyclicState.get_lr { stC3 with last_batch_idx := 5 }
      = expRangeIterLR { stC3 with last_batch_idx := 5 } :=
  cyclic_exp_range_scales_by_iterations [1] (.scalar 0) (.scalar 1) 2 (1/2)
    .cycle (-1) stC3 5 stC3_init

/-- C4: A per-group learning-rate parameter given as a list of the wrong
length raises a ValueError carrying the expected and actual counts — and
both scheduler constructors propagate that error; a scalar is broadcast to
one entry per parameter group; a successful format has exactly one entry
per group; and for both schedulers a successfully constructed instance
produces a get_lr vector whose length equals the number of optimizer
parameter groups. -/
theorem lr_param_group_validation :
    (∀ (α : Type) (name : String) (n : ℕ) (vs : List α),
        vs.length ≠ n →
        formatLr name n (.list vs) = .error ⟨name, n, vs.length⟩) ∧
    (∀ (α : Type) (name : String) (n : ℕ) (v : α),
        formatLr name n (.scalar v) = .ok (List.replicate n v)) ∧
    (∀ (α : Type) (name : String) (n : ℕ) (p : LRParam α) (res : List α),
        formatLr name n p = .ok res → res.length = n) ∧
    (∀ (opt : List ℚ) (b m : LRParam ℚ) (ss : ℤ) (mode : String) (gamma : ℚ)
        (sfn : Option (ℤ → ℚ)) (sm : ScaleMode) (last : ℤ) (st : CyclicState),
        CyclicLR_init opt b m ss mode gamma sfn sm last = .ok st →
        st.get_lr.length = opt.length) ∧
    (∀ (opt : List ℝ) (mn mx : LRParam ℝ) (bp pm le : ℤ) (ws : WRState),
        WarmRestartLR_init opt mn mx bp pm le = .ok ws →
        ws.get_lr.length = opt.length) ∧
    (∀ (opt vs : List ℚ) (m : LRParam ℚ) (ss : ℤ) (mode : String)
        (gamma : ℚ) (sfn : Option (ℤ → ℚ)) (sm : ScaleMode) (last : ℤ),
        vs.length ≠ opt.length →
        CyclicLR_init opt (.list vs) m ss mode gamma sfn sm last
          = .error (.format ⟨"base_lr", opt.length, vs.length⟩)) ∧
    (∀ (opt vs : List ℝ) (mx : LRParam ℝ) (bp pm le : ℤ),
        vs.length ≠ opt.length →
        WarmRestartLR_init opt (.list vs) mx bp pm le
          = .error ⟨"min_lr", opt.length, vs.length⟩) := by
  refine ⟨?_, ?_, ?_, ?_, ?_, ?_, ?_⟩
  · intro α name n vs hne
    simp [formatLr, hne]
  · intro α name n v
    rfl
  · intro α name n p res h
    exact formatLr_length h
  · intro opt b m ss mode gamma sfn sm last st hinit
    obtain ⟨bl, ml, fn, smode, hb, hm, hst⟩ := CyclicLR_init_ok_shape hinit
    subst hst
    rw [get_lr_length]
    show min bl.length ml.length = opt.length
    rw [formatLr_length hb, formatLr_length hm, min_self]
  · intro opt mn mx bp pm le ws hinit
    obtain ⟨mnl, mxl, hb, hm, hws⟩ := WarmRestartLR_init_ok_shape hinit
    subst hws
    simp only [WRState.get_lr]
    rw [List.length_zipWith]
    show min mnl.length mxl.length = opt.length
    rw [formatLr_length hb, formatLr_length hm, min_self]
  · intro opt vs m ss mode gamma sfn sm last hne
    simp [CyclicLR_init, formatLr, hne]
  · intro opt vs mx bp pm le hne
    simp [WarmRestartLR_init, formatLr, hne]

theorem lr_param_group_validation_witness :
    formatLr "base_lr" 2 (.list [(1 : ℚ), 2, 3]) = .error ⟨"base_lr", 2, 3⟩ ∧
    formatLr "max_lr" 3 (.scalar (1 : ℚ)) = .ok [1, 1, 1] ∧
    CyclicLR_init [1, 2] (.list [(1 : ℚ), 2, 3]) (.scalar 1) 2 "triangular"
        1 none .cycle (-1)
      = .error (.format ⟨"base_lr", 2, 3⟩) := by
  refine ⟨?_, ?_, ?_⟩
  · exact lr_param_group_validation.1 ℚ "base_lr" 2 [1, 2, 3] (by decide)
  · have h := lr_param_group_validation.2.1 ℚ "max_lr" 3 (1 : ℚ)
    simpa using h
  · exact lr_param_group_validation.2.2.2.2.2.1 [1, 2] [1, 2, 3] (.scalar 1)
      2 "triangular" 1 none .cycle (-1) (by decide)

/-- C9: CyclicLR.step is a no-op for every argument: it changes neither the
stored batch index nor any parameter group learning rate; the learning
rates are written by batch_step, which sets the stored index and assigns
each group the get_lr value at that index. -/
theorem cyclic_step_is_noop :
    ∀ (s : CyclicState) (epoch : Option ℤ),
      CyclicState.step s epoch = s ∧
      (∀ idx : ℤ, (CyclicState.batch_step s (some idx)).optimizer =
        applyLrs s.optimizer
          (CyclicState.get_lr { s with last_batch_idx := idx })) :=
  fun _ _ => ⟨rfl, fun _ => rfl⟩

/-- C10: Constructing a CyclicLR immediately writes into the optimizer the
schedule value at batch index last_batch_idx + 1 for every parameter group;
with the default last_batch_idx = -1 that is the index-0 value, the base
learning rate; and the stored last_batch_idx after construction is the
constructor argument, not the index that was applied. -/
theorem cyclic_init_mutates_optimizer
    (opt : List ℚ) (base_lr max_lr : LRParam ℚ) (ss : ℤ) (mode : String)
    (gamma : ℚ) (sfn : Option (ℤ → ℚ)) (smode0 : ScaleMode) (last : ℤ)
    (st : CyclicState)
    (hss : 0 < ss)
    (hinit : CyclicLR_init opt base_lr max_lr ss mode gamma sfn smode0 last
      = .ok st) :
    st.last_batch_idx = last ∧
    st.optimizer = applyLrs opt
      (CyclicState.get_lr { st with last_batch_idx := last + 1 }) ∧
    (last = -1 → st.optimizer = st.base_lrs) := by
  obtain ⟨bl, ml, fn, smode, hb, hm, hst⟩ := CyclicLR_init_ok_shape hinit
  subst hst
  refine ⟨rfl, rfl, ?_⟩
  intro hlast
  subst hlast
  have hg : CyclicState.get_lr
      { (⟨opt, bl, ml, ss, gamma, fn, smode, 0⟩ : CyclicState) with
          last_batch_idx := (-1 : ℤ) + 1 } = bl := by
    apply get_lr_base_at_multiple _ 0
    · show bl.length ≤ ml.length
      rw [formatLr_length hb, formatLr_length hm]
    · exact ne_of_gt hss
    · show (-1 : ℤ) + 1 = 0 * (2 * ss)
      ring
  show applyLrs opt
      (CyclicState.get_lr
        { (⟨opt, bl, ml, ss, gamma, fn, smode, 0⟩ : CyclicState) with
            last_batch_idx := (-1 : ℤ) + 1 }) = bl
  rw [hg]
  exact applyLrs_of_length (formatLr_length hb)

theorem cyclic_init_mutates_optimizer_witness :
    stW.last_batch_idx = -1 ∧
    stW.optimizer = applyLrs [1/10]
      (CyclicState.get_lr { stW with last_batch_idx := (-1 : ℤ) + 1 }) ∧
    ((-1 : ℤ) = -1 → stW.optimizer = stW.base_lrs) :=
  cyclic_init_mutates_optimizer [1/10] (.scalar (1/1000)) (.scalar (6/1000))
    2 "triangular" 1 none .cycle (-1) stW (by norm_num) stW_init

/-- C2: WarmRestartLR.get_lr returns, for each parameter group,
min_lr + 0.5*(max_lr - min_lr)*(1 + cos(e*pi/P)) where (e, P) result from
the restart loop that, while the remaining index divided by the period
exceeds 1, subtracts period + 1 from the index and multiplies the period by
period_mult; and within one period the rate decays along the half cosine
from max_lr at in-period epoch 0 to min_lr at in-period epoch P. -/
theorem warm_restart_get_lr_spec (minL maxL : List ℝ) (P0 mult e0 : ℤ) :
    (WRState.get_lr ⟨minL, maxL, P0, mult, e0⟩ =
      List.zipWith (fun mn mx =>
        mn + (1 / 2) * (mx - mn) *
          (1 + Real.cos (((wrLoop mult e0 P0).1 : ℝ) * Real.pi /
            ((wrLoop mult e0 P0).2 : ℝ)))) minL maxL) ∧
    (∀ e P : ℤ, 0 < P →
      wrLoop mult e P =
        if 1 < (e : ℚ) / (P : ℚ)
        then wrLoop mult (e - (P + 1)) (P * mult)
        else (e, P)) ∧
    (∀ (mn mx : ℝ) (P : ℤ), 0 < P →
      WRState.get_lr ⟨[mn], [mx], P, mult, 0⟩ = [mx] ∧
      WRState.get_lr ⟨[mn], [mx], P, mult, P⟩ = [mn]) := by
  refine ⟨rfl, ?_, ?_⟩
  · intro e P hP
    have hPQ : (0 : ℚ) < (P : ℚ) := by exact_mod_cast hP
    by_cases hc : P < e
    · rw [if_pos ((one_lt_div hPQ).mpr (by exact_mod_cast hc))]
      conv_lhs => rw [wrLoop]
      rw [dif_pos ⟨hP, hc⟩]
    · rw [if_neg (by
        rw [one_lt_div hPQ]
        exact fun hcon => hc (by exact_mod_cast hcon))]
      conv_lhs => rw [wrLoop]
      rw [dif_neg (fun hcon => hc hcon.2)]
  · intro mn mx P hP
    have hPne : ((P : ℤ) : ℝ) ≠ 0 := Int.cast_ne_zero.mpr (ne_of_gt hP)
    constructor
    · have hl : wrLoop mult 0 P = (0, P) := by
        rw [wrLoop]
        rw [dif_neg (by rintro ⟨h1, h2⟩; omega)]
      simp only [WRState.get_lr, hl, currentLr, List.zipWith]
      norm_num
      ring
    · have hl : wrLoop mult P P = (P, P) := by
        rw [wrLoop]
        rw [dif_neg (by rintro ⟨h1, h2⟩; omega)]
      simp only [WRState.get_lr, hl, currentLr, List.zipWith]
      rw [mul_comm ((P : ℤ) : ℝ) Real.pi, mul_div_cancel_right₀ _ hPne,
        Real.cos_pi]
      norm_num

theorem warm_restart_get_lr_spec_witness :
    wrLoop 2 25 10 =
      (if 1 < (25 : ℚ) / (10 : ℚ) then wrLoop 2 (25 - (10 + 1)) (10 * 2)
       else (25, 10)) ∧
    WRState.get_lr ⟨[(0 : ℝ)], [1], 10, 2, 0⟩ = [1] := by
  constructor
  · exact (warm_restart_get_lr_spec [] [] 10 2 25).2.1 25 10 (by norm_num)
  · exact ((warm_restart_get_lr_spec [] [] 10 2 0).2.2 0 1 10 (by norm_num)).1

/-- C5: after a first fit, refitting with zero epochs leaves every module
parameter unchanged when warm_start is set (and likewise under
partial_fit), while without warm_start the second fit re-initializes the
module and the parameters differ from their previous values. -/
theorem fit_twice_zero_epochs (s e : ℕ) :
    (fit (fit ⟨true, false, s, (0, 0)⟩ e) 0).params
      = (fit ⟨true, false, s, (0, 0)⟩ e).params ∧
    (fitPartial (fit ⟨true, false, s, (0, 0)⟩ e) 0).params
      = (fit ⟨true, false, s, (0, 0)⟩ e).params ∧
    (fitPartial (fit ⟨false, false, s, (0, 0)⟩ e) 0).params
      = (fit ⟨false, false, s, (0, 0)⟩ e).params ∧
    (fit (fit ⟨false, false, s, (0, 0)⟩ e) 0).params
      ≠ (fit ⟨false, false, s, (0, 0)⟩ e).params := by
  refine ⟨rfl, rfl, rfl, ?_⟩
  simp only [fit, fitPartial, initNet, trainLoop]
  simp [Prod.ext_iff]

/-- C6: constructing a net with keyword arguments matching no recognized
parameter raises a single error itemizing every unrecognized name at once,
and succeeds when every keyword is recognized. -/
theorem net_init_unknown_kwargs (known kwargs : List String) :
    (∀ k, k ∈ unknownKwargs known kwargs ↔ (k ∈ kwargs ∧ k ∉ known)) ∧
    (unknownKwargs known kwargs ≠ [] →
      netInitCheck known kwargs = .error (unknownKwargs known kwargs)) ∧
    ((∀ k ∈ kwargs, k ∈ known) → netInitCheck known kwargs = .ok ()) := by
  refine ⟨?_, ?_, ?_⟩
  · intro k
    simp [unknownKwargs, List.mem_filter]
  · intro hne
    simp only [netInitCheck]
    rw [if_neg (by simpa [List.isEmpty_iff] using hne)]
  · intro hall
    have hnil : unknownKwargs known kwargs = [] := by
      rw [unknownKwargs, List.filter_eq_nil_iff]
      intro a ha
      simp [hall a ha]
    simp [netInitCheck, hnil]

theorem net_init_unknown_kwargs_witness :
    netInitCheck
        ["module", "criterion", "optimizer", "lr", "max_epochs",
         "batch_size", "warm_start"]
        ["lr", "mxa_epochs", "warm_start", "bathc_size"]
      = .error ["mxa_epochs", "bathc_size"] := by
  have h := (net_init_unknown_kwargs
      ["module", "criterion", "optimizer", "lr", "max_epochs",
       "batch_size", "warm_start"]
      ["lr", "mxa_epochs", "warm_start", "bathc_size"]).2.1 (by decide)
  have h2 : unknownKwargs
      ["module", "criterion", "optimizer", "lr", "max_epochs",
       "batch_size", "warm_start"]
      ["lr", "mxa_epochs", "warm_start", "bathc_size"]
      = ["mxa_epochs", "bathc_size"] := by decide
  rw [h2] at h
  exact h

/-- C7: calling save_params or load_params on an un-initialized net raises
the NotInitializedError telling the user to call initialize() or fit first,
and no parameter state is written or read. -/
theorem save_load_before_init (net : PNet) (disk : Option (List ℚ))
    (h : net.initialized = false) :
    save_params net disk = .error saveNotInitMsg ∧
    load_params net disk = .error loadNotInitMsg := by
  constructor <;> simp [save_params, load_params, h]

theorem save_load_before_init_witness :
    save_params ⟨false, []⟩ none = .error saveNotInitMsg ∧
    load_params ⟨false, []⟩ none = .error loadNotInitMsg :=
  save_load_before_init ⟨false, []⟩ none rfl

/-- C8: BernoulliLikelihood.forward raises exactly when the input is not a
Gaussian random variable, and on a Gaussian input returns a Bernoulli
random variable with probabilities ncdf(mean / sqrt(1 + var)), where ncdf
is the normal CDF supplied by gpytorch.functions. -/
theorem bernoulli_forward_spec (ncdf : ℝ → ℝ) (rv : RandomVariable) :
    ((∃ msg, BernoulliLikelihood.forward ncdf rv = .error msg) ↔
      ∀ m v : ℝ, rv ≠ .gaussian m v) ∧
    (∀ m v : ℝ, BernoulliLikelihood.forward ncdf (.gaussian m v)
      = .ok (.bernoulli (ncdf (m / Real.sqrt (1 + v))))) := by
  constructor
  · constructor
    · rintro ⟨msg, hmsg⟩ m v hrv
      rw [hrv] at hmsg
      simp [BernoulliLikelihood.forward] at hmsg
    · intro hall
      cases rv with
      | gaussian m v => exact absurd rfl (hall m v)
      | bernoulli p => exact ⟨_, rfl⟩
  · intro m v
    rfl

theorem bernoulli_forward_spec_witness :
    BernoulliLikelihood.forward id (.gaussian 0 0)
      = .ok (.bernoulli (id ((0 : ℝ) / Real.sqrt (1 + 0)))) :=
  (bernoulli_forward_spec id (.gaussian 0 0)).2 0 0

end Spec2Proof
